import Mathlib

/-!
Verification of the PSU crime-log normalization and reconciliation pipeline.

This file gives a shallow embedding of the ingestion logic of
`psu_crime_scraper.py` (record normalization, campus resolution, occurred-range
splitting, offense splitting, duplicate handling, store invariants) and of the
JSON-mirror reconciliation of `run_cleanup.py`, and proves properties of the
resulting definitions.

Conventions of the embedding:
* Python dicts with string keys and string values become association lists
  `List (String × String)` in insertion order; lookup takes the first matching
  key (keys are distinct in all tables here), while a dict COMPREHENSION that
  writes the same key several times keeps the LAST write, which we model by
  searching the reversed list.
* Python `str.strip()` is `pyStrip` (drops ASCII whitespace at both ends; the
  repository's data is ASCII).
* Python `s.split(sep)` for a non-empty separator is `pySplit`, a left-to-right
  scan over non-overlapping occurrences, implemented with a fuel argument equal
  to the string length so that it is structurally recursive and computable by
  kernel reduction.
* The SQLite tables become lists of records; `AUTOINCREMENT` primary keys are
  modelled by a next-id counter starting at 1 (so a stored id is never 0, which
  matters because the Python code tests ids for truthiness).
-/

-- ── Campus vocabulary (module-level tables of psu_crime_scraper.py) ─────────

/-- CAMPUS_CODES of psu_crime_scraper.py, in dict insertion order: the 23
canonical codes followed by the temporary/alternate codes seen in incident
numbers. -/
def CAMPUS_CODES : List (String × String) :=
  [("UP", "University Park"),
   ("AB", "Abington"),
   ("AL", "Altoona"),
   ("BK", "Beaver"),
   ("BE", "Erie (Behrend)"),
   ("BR", "Berks"),
   ("BW", "Brandywine"),
   ("DL", "Dickinson Law"),
   ("DB", "DuBois"),
   ("FA", "Fayette"),
   ("GA", "Greater Allegheny"),
   ("GV", "Great Valley"),
   ("HB", "Harrisburg"),
   ("HZ", "Hazleton"),
   ("HS", "Hershey"),
   ("LV", "Lehigh Valley"),
   ("MA", "Mont Alto"),
   ("NK", "New Kensington"),
   ("SK", "Schuylkill"),
   ("SH", "Shenango"),
   ("WB", "Wilkes-Barre"),
   ("WS", "Worthington Scranton"),
   ("YK", "York"),
   ("HN", "Hershey"),
   ("ER", "Erie (Behrend)"),
   ("BKT", "Beaver"),
   ("SL", "Schuylkill"),
   ("DS", "DuBois"),
   ("FE", "Fayette"),
   ("ABT", "Abington"),
   ("PSHI", "University Park")]

/-- Lookup in CAMPUS_CODES (first match; codes are pairwise distinct). -/
def CAMPUS_CODES_get (code : String) : Option String :=
  (CAMPUS_CODES.find? (fun p => p.1 = code)).map (fun p => p.2)

/-- CAMPUS_NAME_TO_CODE of psu_crime_scraper.py is the dict comprehension
`brace v : k for k, v in CAMPUS_CODES.items() brace`: iterating in insertion
order and overwriting, so a name that occurs several times ends up mapped to
the code of its LAST occurrence.  Lookup therefore searches the reversed
table. -/
def CAMPUS_NAME_TO_CODE_get (name : String) : Option String :=
  (CAMPUS_CODES.reverse.find? (fun p => p.2 = name)).map (fun p => p.1)

-- ── Python-faithful string helpers ──────────────────────────────────────────

/-- The characters removed by Python `str.strip()` on ASCII data. -/
def pySpace (c : Char) : Bool :=
  c = ' ' || c = '\t' || c = '\n' || c = '\r' || c = '\x0b' || c = '\x0c'

/-- Python `str.strip()` on ASCII data. -/
def pyStrip (s : String) : String :=
  String.mk (((s.toList.dropWhile pySpace).reverse.dropWhile pySpace).reverse)

/-- `dropPre s pre = some rest` iff `s = pre ++ rest`. -/
def dropPre : List Char → List Char → Option (List Char)
  | s, [] => some s
  | [], _ :: _ => none
  | c :: cs, d :: ds => if c = d then dropPre cs ds else none

/-- Does `sep` occur (as a contiguous run) anywhere in `s`?  Mirrors the
Python membership test `sep in s` for a non-empty `sep`. -/
def hasRun (sep : List Char) : List Char → Bool
  | [] => (dropPre [] sep).isSome
  | c :: cs => (dropPre (c :: cs) sep).isSome || hasRun sep cs

/-- Fuelled worker for Python `str.split(sep)` with non-empty `sep`:
left-to-right scan over non-overlapping occurrences.  With `fuel ≥ s.length`
the fuel never runs out. -/
def splitGo (sep : List Char) : Nat → List Char → List (List Char)
  | _, [] => [[]]
  | 0, s => [s]
  | fuel + 1, c :: cs =>
    match dropPre (c :: cs) sep with
    | some rest => [] :: splitGo sep fuel rest
    | none =>
      match splitGo sep fuel cs with
      | [] => [[c]]
      | p :: ps => (c :: p) :: ps

/-- Python `s.split(sep)` for non-empty `sep`. -/
def pySplit (sep s : String) : List String :=
  (splitGo sep.toList s.toList.length s.toList).map String.mk

/-- Does the string contain the literal separator? (Python `sep in s`.) -/
def strHasRun (sep s : String) : Bool :=
  hasRun sep.toList s.toList

-- ── Record normalization pieces (build_database lines 441-445, 483-489) ────

/-- Lines 442-443: `occ_parts = [p.strip() for p in occ.split(" to ")] if occ
else []`. -/
def occParts (occ : String) : List String :=
  if occ = "" then [] else (pySplit " to " occ).map pyStrip

/-- Line 444: `occ_start = occ_parts[0] if occ_parts else ""`. -/
def occStart (occ : String) : String :=
  (occParts occ).headD ""

/-- Line 445: `occ_end = occ_parts[1] if len(occ_parts) > 1 else ""`. -/
def occEnd (occ : String) : String :=
  ((occParts occ).drop 1).headD ""

/-- Lines 486-489: split offense text on newlines, strip each line, and drop
lines that are empty or longer than 200 characters. -/
def splitOffenses (text : String) : List String :=
  (((pySplit "\n" text).map pyStrip).filter
    (fun c => !(c = "") && c.length ≤ 200))

-- ── Campus code extraction (parse_incidents lines 152-155) ──────────────────

/-- ASCII uppercase letter, the regex class `[A-Z]`. -/
def isUpperAZ (c : Char) : Bool :=
  'A' ≤ c && c ≤ 'Z'

/-- Line 153: `re.match(r'\d` followed by `{2}([A-Z]{2,3})', num)` and its
captured group.  The regex anchors at the start: two digits, then greedily 2-3
uppercase letters; with nothing after the group in the pattern, the group is
the first `min 3 n` letters of the following uppercase run of length `n`,
provided `n ≥ 2`. -/
def extractCampusCode (s : String) : Option String :=
  match s.toList with
  | d1 :: d2 :: rest =>
    if d1.isDigit && d2.isDigit then
      let letters := (rest.takeWhile isUpperAZ).take 3
      if 2 ≤ letters.length then some (String.mk letters) else none
    else none
  | _ => none

-- ── Raw records and HTML-block parsing (parse_incidents) ────────────────────

/-- One raw record as carried through the pipeline: the string-keyed dict of
the source, with `""` for an absent or empty field (the source reads every
field with `rec.get(key, "")`, and Python truthiness identifies absent and
empty strings). -/
structure RawRecord where
  campus : String := ""
  incident_number : String := ""
  campus_code : String := ""
  reported_datetime : String := ""
  occurred_datetime : String := ""
  nature_of_incident : String := ""
  offenses : String := ""
  location : String := ""
  deriving DecidableEq, Repr

/-- The per-incident fields the (out-of-scope) HTML extractor produces for one
`.views-row` block: `none` when the selector finds nothing, otherwise the
extracted text. -/
structure Block where
  title : Option String := none
  reported : Option String := none
  occurred : Option String := none
  nature : Option String := none
  offenses : Option String := none
  location : Option String := none
  deriving DecidableEq, Repr

/-- parse_incidents lines 140-180 for one block: seed campus_code from the
reverse name lookup of the campus label, then override it from the incident
number when the regex matches. -/
def parseBlock (campus_label : String) (b : Block) : RawRecord :=
  let baseCode := (CAMPUS_NAME_TO_CODE_get campus_label).getD ""
  let num := b.title.getD ""
  let code :=
    match b.title with
    | none => baseCode
    | some t =>
      match extractCampusCode t with
      | some c => c
      | none => baseCode
  { campus := campus_label
    incident_number := num
    campus_code := code
    reported_datetime := b.reported.getD ""
    occurred_datetime := b.occurred.getD ""
    nature_of_incident := b.nature.getD ""
    offenses := b.offenses.getD ""
    location := b.location.getD "" }

/-- parse_incidents lines 189-193: keep a record only if at least one of
incident_number, reported_datetime, nature_of_incident is non-empty. -/
def acceptRecord (r : RawRecord) : Bool :=
  !(r.incident_number = "") || !(r.reported_datetime = "") ||
    !(r.nature_of_incident = "")

/-- parse_incidents over a page's list of blocks: parse each block, keep the
accepted ones in order (rejected blocks are dropped silently, the rest of the
batch unaffected). -/
def parseIncidents (campus_label : String) (blocks : List Block) :
    List RawRecord :=
  (blocks.map (parseBlock campus_label)).filter acceptRecord

-- ── The relational store (build_database) ───────────────────────────────────

/-- One row of the campuses table. -/
structure Campus where
  campus_id : Nat
  campus_code : String
  campus_name : String
  deriving DecidableEq, Repr

/-- One row of the incidents table.  `incident_number` is `none` when the
source inserts SQL NULL (`incident_number or None` with an empty string). -/
structure Incident where
  id : Nat
  incident_number : Option String
  campus_id : Nat
  reported_datetime : String
  occurred_start : String
  occurred_end : String
  nature_of_incident : String
  location : String
  deriving DecidableEq, Repr

/-- One row of the offense_types table (description is never written by
ingestion). -/
structure OffenseType where
  offense_id : Nat
  offense_code : String
  deriving DecidableEq, Repr

/-- The mutable store: the four tables plus the AUTOINCREMENT counters (ids
start at 1 on a fresh database). -/
structure DB where
  campuses : List Campus
  incidents : List Incident
  offense_types : List OffenseType
  links : List (Nat × Nat)
  next_incident_id : Nat
  next_offense_id : Nat
  deriving DecidableEq, Repr

/-- The inserted/skipped counters of build_database. -/
structure Counts where
  inserted : Nat
  skipped : Nat
  deriving DecidableEq, Repr

/-- Seeding lines 412-415: `INSERT OR IGNORE INTO campuses` for every
CAMPUS_CODES entry; a row is ignored exactly when its code is already present
(campus_code is UNIQUE; campus_name carries no uniqueness constraint). -/
def seedFold (rows : List (String × String)) : List Campus :=
  rows.foldl
    (fun acc p =>
      if acc.any (fun c => c.campus_code = p.1) then acc
      else acc ++ [⟨acc.length + 1, p.1, p.2⟩])
    []

/-- The campuses table after schema creation and seeding on a fresh store. -/
def seededCampuses : List Campus :=
  seedFold CAMPUS_CODES

/-- The fresh store after `initialize()`: empty tables except the seeded
campuses. -/
def initDB : DB :=
  { campuses := seededCampuses
    incidents := []
    offense_types := []
    links := []
    next_incident_id := 1
    next_offense_id := 1 }

/-- The campus_map of build_database line 419: campus_code → campus_id. -/
def campusIdOf (campuses : List Campus) (code : String) : Option Nat :=
  (campuses.find? (fun c => c.campus_code = code)).map (fun c => c.campus_id)

/-- Python truthiness on an optional integer: `None` and `0` are falsy.  (The
seeded store never holds id 0, but the source tests `if not campus_id`.) -/
def truthyId : Option Nat → Option Nat
  | some 0 => none
  | o => o

/-- build_database lines 426-439: campus resolution — the record's
campus_code via campus_map, else the reverse name lookup of its campus label
via campus_map; `none` means the record is skipped. -/
def resolveCampus (db : DB) (rec : RawRecord) : Option Nat :=
  match truthyId (campusIdOf db.campuses rec.campus_code) with
  | some cid => some cid
  | none =>
    match CAMPUS_NAME_TO_CODE_get rec.campus with
    | none => none
    | some code2 => truthyId (campusIdOf db.campuses code2)

/-- The incident row built by the INSERT of lines 464-479. -/
def mkIncident (db : DB) (cid : Nat) (rec : RawRecord) : Incident :=
  { id := db.next_incident_id
    incident_number :=
      if rec.incident_number = "" then none else some rec.incident_number
    campus_id := cid
    reported_datetime := rec.reported_datetime
    occurred_start := occStart rec.occurred_datetime
    occurred_end := occEnd rec.occurred_datetime
    nature_of_incident := rec.nature_of_incident
    location := rec.location }

/-- Lines 491-505 for one cleaned offense code: insert-if-absent into
offense_types, look the id up, insert-if-absent the (incident, offense)
link. -/
def insertOffense (db : DB) (incId : Nat) (codeStr : String) : DB :=
  let db1 :=
    if db.offense_types.any (fun ot => ot.offense_code = codeStr) then db
    else
      { db with
        offense_types :=
          db.offense_types ++ [⟨db.next_offense_id, codeStr⟩]
        next_offense_id := db.next_offense_id + 1 }
  match db1.offense_types.find? (fun ot => ot.offense_code = codeStr) with
  | none => db1
  | some ot =>
    if (incId, ot.offense_id) ∈ db1.links then db1
    else { db1 with links := db1.links ++ [(incId, ot.offense_id)] }

/-- Lines 483-489: the cleaned offense codes of a record (`if offense_text:`
guard, then split/strip/filter). -/
def offCodes (rec : RawRecord) : List String :=
  if rec.offenses = "" then [] else splitOffenses rec.offenses

/-- build_database lines 425-515 for one record: resolve the campus (skip on
failure), skip when a non-empty incident_number already exists, otherwise
insert the incident row and its offense rows/links.  The IntegrityError branch
of the source is unreachable here: the only UNIQUE constraint an insert could
break is incident_number, which is checked just before. -/
def ingestOne (st : DB × Counts) (rec : RawRecord) : DB × Counts :=
  let db := st.1
  let cnt := st.2
  match resolveCampus db rec with
  | none => (db, ⟨cnt.inserted, cnt.skipped + 1⟩)
  | some cid =>
    if !(rec.incident_number = "") &&
        db.incidents.any
          (fun i => i.incident_number = some rec.incident_number) then
      (db, ⟨cnt.inserted, cnt.skipped + 1⟩)
    else
      let inc := mkIncident db cid rec
      let db1 :=
        { db with
          incidents := db.incidents ++ [inc]
          next_incident_id := db.next_incident_id + 1 }
      let db2 := (offCodes rec).foldl (fun d c => insertOffense d inc.id c) db1
      (db2, ⟨cnt.inserted + 1, cnt.skipped⟩)

/-- build_database on a fresh store: initialize, seed, then ingest the batch
in order. -/
def buildDatabase (records : List RawRecord) : DB × Counts :=
  records.foldl ingestOne (initDB, ⟨0, 0⟩)

-- ── JSON-mirror reconciliation (run_cleanup.py) ─────────────────────────────

/-- CAMPUS_CODE_FIXES of run_cleanup.py: deprecated code → canonical code. -/
def CAMPUS_CODE_FIXES : List (String × String) :=
  [("HN", "HS"),
   ("ER", "BE"),
   ("BKT", "BK"),
   ("SL", "SK"),
   ("DS", "DB"),
   ("FE", "FA"),
   ("PSHI", "UP"),
   ("ABT", "AB")]

/-- CORRECT_CAMPUS_NAMES of run_cleanup.py: the canonical code → name table. -/
def CORRECT_CAMPUS_NAMES : List (String × String) :=
  [("UP", "University Park"),
   ("AB", "Abington"),
   ("AL", "Altoona"),
   ("BK", "Beaver"),
   ("BE", "Erie (Behrend)"),
   ("BR", "Berks"),
   ("BW", "Brandywine"),
   ("DL", "Dickinson Law"),
   ("DB", "DuBois"),
   ("FA", "Fayette"),
   ("GA", "Greater Allegheny"),
   ("GV", "Great Valley"),
   ("HB", "Harrisburg"),
   ("HZ", "Hazleton"),
   ("HS", "Hershey"),
   ("LV", "Lehigh Valley"),
   ("MA", "Mont Alto"),
   ("NK", "New Kensington"),
   ("SK", "Schuylkill"),
   ("SH", "Shenango"),
   ("WB", "Wilkes-Barre"),
   ("WS", "Worthington Scranton"),
   ("YK", "York")]

/-- Lookup in CAMPUS_CODE_FIXES (keys pairwise distinct). -/
def fixesGet (code : String) : Option String :=
  (CAMPUS_CODE_FIXES.find? (fun p => p.1 = code)).map (fun p => p.2)

/-- Lookup in CORRECT_CAMPUS_NAMES (keys pairwise distinct). -/
def namesGet (code : String) : Option String :=
  (CORRECT_CAMPUS_NAMES.find? (fun p => p.1 = code)).map (fun p => p.2)

/-- A code drawn from the canonical set (a key of CORRECT_CAMPUS_NAMES). -/
def isCanonical (code : String) : Bool :=
  (namesGet code).isSome

/-- clean_json lines 122-128 for one mirror record: when the campus_code is a
key of CAMPUS_CODE_FIXES, overwrite it with the canonical code and overwrite
the campus name with `CORRECT_CAMPUS_NAMES[new_code]` (always present, since
every fix target is a canonical code). -/
def fixRecord (r : RawRecord) : RawRecord :=
  match fixesGet r.campus_code with
  | none => r
  | some nc =>
    { r with campus_code := nc, campus := (namesGet nc).getD "" }

/-- clean_json over the whole mirror: every record is visited in order; the
result is the rewritten record list and the fixes_applied counter. -/
def cleanJson (records : List RawRecord) : List RawRecord × Nat :=
  (records.map fixRecord,
   (records.filter (fun r => (fixesGet r.campus_code).isSome)).length)

-- ── Lemmas about the Python split ───────────────────────────────────────────

/-- Joining a list of pieces with a separator (the inverse of the split). -/
def joinSep (sep : List Char) : List (List Char) → List Char
  | [] => []
  | [p] => p
  | p :: q :: ps => p ++ sep ++ joinSep sep (q :: ps)

theorem splitGo_ne_nil (sep : List Char) (fuel : Nat) (s : List Char) :
    splitGo sep fuel s ≠ [] := by
  match fuel, s with
  | _, [] => simp [splitGo]
  | 0, c :: cs => simp [splitGo]
  | fuel + 1, c :: cs =>
    simp only [splitGo]
    cases h : dropPre (c :: cs) sep with
    | some rest => simp
    | none => cases h2 : splitGo sep fuel cs <;> simp

theorem dropPre_eq_some :
    ∀ (pre s rest : List Char), dropPre s pre = some rest → s = pre ++ rest := by
  intro pre
  induction pre with
  | nil =>
    intro s rest h
    simp only [dropPre, Option.some.injEq] at h
    simp [h]
  | cons d ds ih =>
    intro s rest h
    cases s with
    | nil => simp [dropPre] at h
    | cons c cs =>
      simp only [dropPre] at h
      by_cases hcd : c = d
      · rw [if_pos hcd] at h
        subst hcd
        simpa using ih cs rest h
      · rw [if_neg hcd] at h
        exact absurd h (by simp)

theorem splitGo_of_no_run (sep : List Char) :
    ∀ (fuel : Nat) (s : List Char), hasRun sep s = false → s.length ≤ fuel →
      splitGo sep fuel s = [s] := by
  intro fuel
  induction fuel with
  | zero =>
    intro s _ hle
    have hs : s = [] := by
      cases s with
      | nil => rfl
      | cons c cs => simp at hle
    subst hs
    simp [splitGo]
  | succ n ih =>
    intro s h hle
    cases s with
    | nil => simp [splitGo]
    | cons c cs =>
      have h1 : (dropPre (c :: cs) sep).isSome = false ∧ hasRun sep cs = false := by
        simpa [hasRun] using h
      simp only [splitGo]
      cases hdp : dropPre (c :: cs) sep with
      | some rest =>
        rw [hdp] at h1
        simp at h1
      | none =>
        rw [ih cs h1.2 (Nat.le_of_succ_le_succ (by simpa using hle))]

theorem joinSep_cons_head (sep : List Char) (c : Char) (p : List Char)
    (ps : List (List Char)) :
    joinSep sep ((c :: p) :: ps) = c :: joinSep sep (p :: ps) := by
  cases ps <;> simp [joinSep]

theorem joinSep_splitGo (sep : List Char) (hsep : sep ≠ []) :
    ∀ (fuel : Nat) (s : List Char), s.length ≤ fuel →
      joinSep sep (splitGo sep fuel s) = s := by
  intro fuel
  induction fuel with
  | zero =>
    intro s hle
    have hs : s = [] := by
      cases s with
      | nil => rfl
      | cons c cs => simp at hle
    subst hs
    simp [splitGo, joinSep]
  | succ n ih =>
    intro s hle
    cases s with
    | nil => simp [splitGo, joinSep]
    | cons c cs =>
      cases hdp : dropPre (c :: cs) sep with
      | some rest =>
        have hred : splitGo sep (n + 1) (c :: cs) = [] :: splitGo sep n rest := by
          simp [splitGo, hdp]
        have heq := dropPre_eq_some sep (c :: cs) rest hdp
        have hsl : 1 ≤ sep.length := by
          cases sep with
          | nil => exact absurd rfl hsep
          | cons x xs => simp
        have hlenc : (c :: cs).length = sep.length + rest.length := by
          rw [heq]; simp
        have hlen : rest.length ≤ n := by
          have hle2 : (c :: cs).length ≤ n + 1 := hle
          omega
        cases hsplit : splitGo sep n rest with
        | nil => exact absurd hsplit (splitGo_ne_nil sep n rest)
        | cons p ps =>
          have hjoin : joinSep sep (p :: ps) = rest := by
            rw [← hsplit]; exact ih rest hlen
          rw [hred, hsplit]
          simp [joinSep, hjoin, heq]
      | none =>
        cases hsplit : splitGo sep n cs with
        | nil => exact absurd hsplit (splitGo_ne_nil sep n cs)
        | cons p ps =>
          have hred : splitGo sep (n + 1) (c :: cs) = (c :: p) :: ps := by
            simp [splitGo, hdp, hsplit]
          rw [hred, joinSep_cons_head]
          have hjoin : joinSep sep (p :: ps) = cs := by
            rw [← hsplit]; exact ih cs (Nat.le_of_succ_le_succ (by simpa using hle))
          rw [hjoin]

theorem two_le_splitGo (sep : List Char) (hsep : sep ≠ []) :
    ∀ (fuel : Nat) (s : List Char), hasRun sep s = true → s.length ≤ fuel →
      2 ≤ (splitGo sep fuel s).length := by
  intro fuel
  induction fuel with
  | zero =>
    intro s h hle
    have hs : s = [] := by
      cases s with
      | nil => rfl
      | cons c cs => simp at hle
    subst hs
    cases sep with
    | nil => exact absurd rfl hsep
    | cons d ds => simp [hasRun, dropPre] at h
  | succ n ih =>
    intro s h hle
    cases s with
    | nil =>
      cases sep with
      | nil => exact absurd rfl hsep
      | cons d ds => simp [hasRun, dropPre] at h
    | cons c cs =>
      simp only [splitGo]
      cases hdp : dropPre (c :: cs) sep with
      | some rest =>
        have h1 : splitGo sep n rest ≠ [] := splitGo_ne_nil sep n rest
        have h2 : 1 ≤ (splitGo sep n rest).length := by
          cases hh : splitGo sep n rest with
          | nil => exact absurd hh h1
          | cons p ps => simp
        simp only [List.length_cons]
        omega
      | none =>
        have hruncs : hasRun sep cs = true := by
          have := h
          simp only [hasRun, hdp, Option.isSome_none, Bool.false_or] at this
          exact this
        have h2 := ih cs hruncs (Nat.le_of_succ_le_succ (by simpa using hle))
        cases hsplit : splitGo sep n cs with
        | nil => exact absurd hsplit (splitGo_ne_nil sep n cs)
        | cons p ps =>
          rw [hsplit] at h2
          simpa using h2

theorem strMk_toList (s : String) : String.mk s.toList = s := rfl

theorem headD_map_pyStrip (l : List String) :
    ((l.map pyStrip).headD "") = pyStrip (l.headD "") := by
  cases l <;> simp [pyStrip]

theorem drop_one_map_pyStrip (l : List String) :
    (((l.map pyStrip).drop 1).headD "") = pyStrip ((l.drop 1).headD "") := by
  cases l with
  | nil => simp [pyStrip]
  | cons p ps => cases ps <;> simp [pyStrip]

/-- Joining string pieces with a separator. -/
def strJoin (sep : String) (parts : List String) : String :=
  String.mk (joinSep sep.toList (parts.map String.toList))

theorem pySplit_ne_nil (sep s : String) : pySplit sep s ≠ [] := by
  unfold pySplit
  intro h
  exact splitGo_ne_nil sep.toList s.toList.length s.toList (by simpa using h)

/-- Claim C6 (amended): the normalizer splits the occurred field on every
non-overlapping occurrence of " to " and keeps the FIRST TWO trimmed parts as
(start, end) — parts after the second are discarded, so with a single
separator this is exactly the claimed two-part split, and the parts always
reassemble to the original field; for a field without the separator, start is
the whole trimmed field and end is empty. -/
theorem occurred_range_split (occ : String) :
    (strHasRun " to " occ = false →
      occStart occ = pyStrip occ ∧ occEnd occ = "") ∧
    (strHasRun " to " occ = true →
      2 ≤ (pySplit " to " occ).length ∧
      occStart occ = pyStrip ((pySplit " to " occ).headD "") ∧
      occEnd occ = pyStrip (((pySplit " to " occ).drop 1).headD "") ∧
      strJoin " to " (pySplit " to " occ) = occ) := by
  constructor
  · intro h
    by_cases hocc : occ = ""
    · subst hocc
      exact ⟨rfl, rfl⟩
    · have hsplit :
          splitGo " to ".toList occ.toList.length occ.toList = [occ.toList] :=
        splitGo_of_no_run " to ".toList occ.toList.length occ.toList h
          (Nat.le_refl _)
      unfold occStart occEnd occParts pySplit
      rw [if_neg hocc, hsplit]
      simp [strMk_toList]
  · intro h
    have hocc : occ ≠ "" := by
      intro he
      subst he
      exact absurd h (by decide)
    have hsepne : " to ".toList ≠ [] := by decide
    refine ⟨?_, ?_, ?_, ?_⟩
    · unfold pySplit
      rw [List.length_map]
      exact two_le_splitGo " to ".toList hsepne occ.toList.length occ.toList h
        (Nat.le_refl _)
    · unfold occStart occParts
      rw [if_neg hocc]
      exact headD_map_pyStrip (pySplit " to " occ)
    · unfold occEnd occParts
      rw [if_neg hocc]
      exact drop_one_map_pyStrip (pySplit " to " occ)
    · unfold strJoin pySplit
      have hmaps :
          ((splitGo " to ".toList occ.toList.length occ.toList).map
              String.mk).map String.toList =
            splitGo " to ".toList occ.toList.length occ.toList := by
        rw [List.map_map]
        exact List.map_id'' (fun l => rfl) _
      rw [hmaps,
        joinSep_splitGo " to ".toList hsepne occ.toList.length occ.toList
          (Nat.le_refl _)]
      exact strMk_toList occ

/-- Claim C6 counterexample: an occurred field holding the separator twice is
split into THREE parts, not exactly two; the normalizer keeps only the first
two trimmed parts, silently discarding the text after the second separator. -/
theorem occurred_range_split_counterexample :
    strHasRun " to " "10:00 to 11:00 to 12:00" = true ∧
    (pySplit " to " "10:00 to 11:00 to 12:00").length = 3 ∧
    occStart "10:00 to 11:00 to 12:00" = "10:00" ∧
    occEnd "10:00 to 11:00 to 12:00" = "11:00" := by
  refine ⟨rfl, rfl, rfl, rfl⟩

theorem occurred_range_split_witness :
    2 ≤ (pySplit " to " "10:00 to 11:00").length ∧
    occStart "10:00 to 11:00" =
      pyStrip ((pySplit " to " "10:00 to 11:00").headD "") ∧
    occEnd "10:00 to 11:00" =
      pyStrip (((pySplit " to " "10:00 to 11:00").drop 1).headD "") ∧
    strJoin " to " (pySplit " to " "10:00 to 11:00") = "10:00 to 11:00" :=
  (occurred_range_split "10:00 to 11:00").2 (by decide)

-- ── Lemmas about the store operations ───────────────────────────────────────

theorem insertOffense_campuses (db : DB) (i : Nat) (c : String) :
    (insertOffense db i c).campuses = db.campuses := by
  unfold insertOffense
  dsimp only
  split <;> split <;> first | rfl | (split <;> rfl)

theorem insertOffense_incidents (db : DB) (i : Nat) (c : String) :
    (insertOffense db i c).incidents = db.incidents := by
  unfold insertOffense
  dsimp only
  split <;> split <;> first | rfl | (split <;> rfl)

theorem foldOffenses_campuses (codes : List String) :
    ∀ (db : DB) (i : Nat),
      (codes.foldl (fun d c => insertOffense d i c) db).campuses =
        db.campuses := by
  induction codes with
  | nil => intro db i; rfl
  | cons c cs ih =>
    intro db i
    simp only [List.foldl_cons]
    rw [ih (insertOffense db i c) i, insertOffense_campuses]

theorem foldOffenses_incidents (codes : List String) :
    ∀ (db : DB) (i : Nat),
      (codes.foldl (fun d c => insertOffense d i c) db).incidents =
        db.incidents := by
  induction codes with
  | nil => intro db i; rfl
  | cons c cs ih =>
    intro c_db i
    simp only [List.foldl_cons]
    rw [ih (insertOffense c_db i c) i, insertOffense_incidents]

theorem ingestOne_skip_of_none (db : DB) (cnt : Counts) (rec : RawRecord)
    (h : resolveCampus db rec = none) :
    ingestOne (db, cnt) rec = (db, ⟨cnt.inserted, cnt.skipped + 1⟩) := by
  unfold ingestOne
  dsimp only
  rw [h]

theorem ingestOne_skip_of_dup (db : DB) (cnt : Counts) (rec : RawRecord)
    (cid : Nat) (h : resolveCampus db rec = some cid)
    (hb : (!(rec.incident_number = "") &&
        db.incidents.any
          (fun i => i.incident_number = some rec.incident_number)) = true) :
    ingestOne (db, cnt) rec = (db, ⟨cnt.inserted, cnt.skipped + 1⟩) := by
  unfold ingestOne
  simp only [h]
  rw [if_pos hb]

theorem ingestOne_insert_spec (db : DB) (cnt : Counts) (rec : RawRecord)
    (cid : Nat) (h : resolveCampus db rec = some cid)
    (hb : (!(rec.incident_number = "") &&
        db.incidents.any
          (fun i => i.incident_number = some rec.incident_number)) = false) :
    (ingestOne (db, cnt) rec).1.campuses = db.campuses ∧
    (ingestOne (db, cnt) rec).1.incidents =
      db.incidents ++ [mkIncident db cid rec] ∧
    (ingestOne (db, cnt) rec).2 = ⟨cnt.inserted + 1, cnt.skipped⟩ := by
  unfold ingestOne
  simp only [h]
  rw [if_neg (by simp [hb])]
  refine ⟨?_, ?_, rfl⟩
  · rw [foldOffenses_campuses]
  · rw [foldOffenses_incidents]

theorem ingestOne_campuses (st : DB × Counts) (rec : RawRecord) :
    (ingestOne st rec).1.campuses = st.1.campuses := by
  obtain ⟨db, cnt⟩ := st
  cases hres : resolveCampus db rec with
  | none => rw [ingestOne_skip_of_none db cnt rec hres]
  | some cid =>
    cases hb : (!(rec.incident_number = "") &&
        db.incidents.any
          (fun i => i.incident_number = some rec.incident_number)) with
    | true => rw [ingestOne_skip_of_dup db cnt rec cid hres hb]
    | false => exact (ingestOne_insert_spec db cnt rec cid hres hb).1

theorem truthyId_some (o : Option Nat) (cid : Nat)
    (h : truthyId o = some cid) : o = some cid := by
  cases o with
  | none => simp [truthyId] at h
  | some k =>
    cases k with
    | zero => simp [truthyId] at h
    | succ m => simpa [truthyId] using h

theorem campusIdOf_mem (campuses : List Campus) (code : String) (cid : Nat)
    (h : campusIdOf campuses code = some cid) :
    ∃ c ∈ campuses, c.campus_id = cid := by
  unfold campusIdOf at h
  cases hf : campuses.find? (fun c => c.campus_code = code) with
  | none => rw [hf] at h; simp at h
  | some c =>
    rw [hf] at h
    simp only [Option.map_some', Option.some.injEq] at h
    exact ⟨c, List.mem_of_find?_eq_some hf, h⟩

theorem resolveCampus_mem (db : DB) (rec : RawRecord) (cid : Nat)
    (h : resolveCampus db rec = some cid) :
    ∃ c ∈ db.campuses, c.campus_id = cid := by
  unfold resolveCampus at h
  cases h1 : truthyId (campusIdOf db.campuses rec.campus_code) with
  | some k =>
    rw [h1] at h
    simp only [Option.some.injEq] at h
    subst h
    exact campusIdOf_mem _ _ _ (truthyId_some _ _ h1)
  | none =>
    rw [h1] at h
    cases h2 : CAMPUS_NAME_TO_CODE_get rec.campus with
    | none => rw [h2] at h; simp at h
    | some code2 =>
      rw [h2] at h
      exact campusIdOf_mem _ _ _ (truthyId_some _ _ h)

theorem resolveCampus_eq_of_campuses (db db' : DB) (rec : RawRecord)
    (h : db.campuses = db'.campuses) :
    resolveCampus db rec = resolveCampus db' rec := by
  unfold resolveCampus campusIdOf
  rw [h]

/-- Referential integrity of the incidents table: every stored incident's
campus_id is the id of an existing campuses row. -/
def campusOK (db : DB) : Prop :=
  ∀ inc ∈ db.incidents, ∃ c ∈ db.campuses, inc.campus_id = c.campus_id

theorem ingestOne_campusOK (st : DB × Counts) (rec : RawRecord)
    (h : campusOK st.1) : campusOK (ingestOne st rec).1 := by
  obtain ⟨db, cnt⟩ := st
  cases hres : resolveCampus db rec with
  | none =>
    rw [ingestOne_skip_of_none db cnt rec hres]
    exact h
  | some cid =>
    cases hb : (!(rec.incident_number = "") &&
        db.incidents.any
          (fun i => i.incident_number = some rec.incident_number)) with
    | true =>
      rw [ingestOne_skip_of_dup db cnt rec cid hres hb]
      exact h
    | false =>
      obtain ⟨hcamp, hinc, _⟩ := ingestOne_insert_spec db cnt rec cid hres hb
      intro i hi
      rw [hinc] at hi
      rw [hcamp]
      rcases List.mem_append.mp hi with hold | hnew
      · exact h i hold
      · have : i = mkIncident db cid rec := by simpa using hnew
        subst this
        obtain ⟨c, hc, hcid⟩ := resolveCampus_mem db rec cid hres
        exact ⟨c, hc, by simp [mkIncident, hcid]⟩

theorem foldl_ingest_campusOK (records : List RawRecord) :
    ∀ st : DB × Counts, campusOK st.1 →
      campusOK (records.foldl ingestOne st).1 := by
  induction records with
  | nil => intro st h; exact h
  | cons r rs ih =>
    intro st h
    simp only [List.foldl_cons]
    exact ih (ingestOne st r) (ingestOne_campusOK st r h)

-- ── st-level corollaries of the ingestOne case analysis ─────────────────────

theorem ingestOne_skip_of_none_st (st : DB × Counts) (rec : RawRecord)
    (h : resolveCampus st.1 rec = none) :
    ingestOne st rec = (st.1, ⟨st.2.inserted, st.2.skipped + 1⟩) :=
  ingestOne_skip_of_none st.1 st.2 rec h

theorem ingestOne_skip_of_dup_st (st : DB × Counts) (rec : RawRecord)
    (cid : Nat) (h : resolveCampus st.1 rec = some cid)
    (hb : (!(rec.incident_number = "") &&
        st.1.incidents.any
          (fun i => i.incident_number = some rec.incident_number)) = true) :
    ingestOne st rec = (st.1, ⟨st.2.inserted, st.2.skipped + 1⟩) :=
  ingestOne_skip_of_dup st.1 st.2 rec cid h hb

theorem ingestOne_insert_spec_st (st : DB × Counts) (rec : RawRecord)
    (cid : Nat) (h : resolveCampus st.1 rec = some cid)
    (hb : (!(rec.incident_number = "") &&
        st.1.incidents.any
          (fun i => i.incident_number = some rec.incident_number)) = false) :
    (ingestOne st rec).1.campuses = st.1.campuses ∧
    (ingestOne st rec).1.incidents =
      st.1.incidents ++ [mkIncident st.1 cid rec] ∧
    (ingestOne st rec).2 = ⟨st.2.inserted + 1, st.2.skipped⟩ :=
  ingestOne_insert_spec st.1 st.2 rec cid h hb

-- ── Claim C1 ────────────────────────────────────────────────────────────────

/-- A raw record with an unknown campus code and an unknown campus label:
neither resolution step can find a campus for it. -/
def recNoCampus : RawRecord :=
  { campus := "Nowhere", campus_code := "XX",
    incident_number := "24XX00099", nature_of_incident := "THEFT" }

/-- Claim C1: a record whose campus_code does not resolve against the seeded
campuses and whose campus label also fails the reverse name-to-code fallback
is skipped — the skipped counter is incremented and the store is unchanged, so
no incident row is inserted; consequently every incident build_database ever
stores has a campus_id that references an existing campuses row (an incident
is never persisted without a resolving campus reference). -/
theorem campus_reference_integrity (records : List RawRecord) :
    (∀ (db : DB) (cnt : Counts) (rec : RawRecord),
      resolveCampus db rec = none →
        ingestOne (db, cnt) rec = (db, ⟨cnt.inserted, cnt.skipped + 1⟩)) ∧
    campusOK (buildDatabase records).1 := by
  constructor
  · exact fun db cnt rec h => ingestOne_skip_of_none db cnt rec h
  · exact foldl_ingest_campusOK records (initDB, ⟨0, 0⟩)
      (fun inc hinc => absurd hinc (by simp [initDB]))

theorem campus_reference_integrity_witness :
    ingestOne (initDB, ⟨0, 0⟩) recNoCampus = (initDB, ⟨0, 1⟩) :=
  (campus_reference_integrity []).1 initDB ⟨0, 0⟩ recNoCampus (by decide)

-- ── Claim C2 ────────────────────────────────────────────────────────────────

/-- A record carrying the incident number of the spec's scenario but no
resolvable campus signal. -/
def recDupNoCampus : RawRecord :=
  { incident_number := "24UP00001", campus_code := "ZZ" }

/-- Claim C2 counterexample: two input records share the same non-empty
incident number "24UP00001", yet ingesting both stores NO incident row and
yields inserted=0, skipped=2 — not one row with inserted=1, skipped=1 — because
both are rejected at campus resolution before the duplicate logic runs.  The
claimed outcome needs each record's campus to resolve. -/
theorem duplicate_first_wins_counterexample :
    recDupNoCampus.incident_number = "24UP00001" ∧
    (buildDatabase [recDupNoCampus, recDupNoCampus]).1.incidents.length = 0 ∧
    (buildDatabase [recDupNoCampus, recDupNoCampus]).2 = ⟨0, 2⟩ := by
  decide

/-- Claim C2 (amended): for every pair of input records carrying the same
non-empty incident_number, EACH OF WHICH RESOLVES TO A SEEDED CAMPUS,
ingesting both stores exactly one incident row — the first record's row, so
first write wins and the later duplicate is a silent no-op counted as skipped,
not merged — with inserted=1 and skipped=1. -/
theorem duplicate_first_write_wins (r1 r2 : RawRecord) (c1 c2 : Nat)
    (h1 : resolveCampus initDB r1 = some c1)
    (h2 : resolveCampus initDB r2 = some c2)
    (hnum : r1.incident_number = r2.incident_number)
    (hne : ¬ (r1.incident_number = "")) :
    (buildDatabase [r1, r2]).1.incidents = [mkIncident initDB c1 r1] ∧
    (buildDatabase [r1, r2]).2 = ⟨1, 1⟩ := by
  have hb1 : (!(r1.incident_number = "") &&
      initDB.incidents.any
        (fun i => i.incident_number = some r1.incident_number)) = false := by
    simp [initDB]
  obtain ⟨hc1, hi1, hn1⟩ :=
    ingestOne_insert_spec_st (initDB, ⟨0, 0⟩) r1 c1 h1 hb1
  have hstep : buildDatabase [r1, r2] =
      ingestOne (ingestOne (initDB, ⟨0, 0⟩) r1) r2 := rfl
  have hne2 : ¬ (r2.incident_number = "") := by
    rw [← hnum]; exact hne
  have hres2 :
      resolveCampus (ingestOne (initDB, ⟨0, 0⟩) r1).1 r2 = some c2 := by
    rw [resolveCampus_eq_of_campuses _ initDB r2 (by rw [hc1])]
    exact h2
  have hb2 : (!(r2.incident_number = "") &&
      (ingestOne (initDB, ⟨0, 0⟩) r1).1.incidents.any
        (fun i => i.incident_number = some r2.incident_number)) = true := by
    rw [hi1]
    simp [initDB, mkIncident, hne, hne2, hnum]
  have hskip :=
    ingestOne_skip_of_dup_st (ingestOne (initDB, ⟨0, 0⟩) r1) r2 c2 hres2 hb2
  rw [hstep, hskip]
  constructor
  · simpa [initDB] using hi1
  · have : (ingestOne (initDB, ⟨0, 0⟩) r1).2 = ⟨1, 0⟩ := by
      simpa using hn1
    simp [this]

/-- A record with the scenario's incident number and a resolvable campus. -/
def recDupUP : RawRecord :=
  { incident_number := "24UP00001", campus_code := "UP",
    campus := "University Park" }

theorem duplicate_first_write_wins_witness :
    (buildDatabase [recDupUP, recDupUP]).1.incidents =
      [mkIncident initDB 1 recDupUP] ∧
    (buildDatabase [recDupUP, recDupUP]).2 = ⟨1, 1⟩ :=
  duplicate_first_write_wins recDupUP recDupUP 1 1 (by decide) (by decide)
    rfl (by decide)

-- ── Claim C10 ───────────────────────────────────────────────────────────────

/-- A number-less record with no campus signal at all. -/
def recNoNumNoCampus : RawRecord :=
  { nature_of_incident := "THEFT" }

/-- Claim C10 counterexample: a record with an empty incident_number is NOT
unconditionally inserted — with no resolvable campus it is skipped before the
insert, so ingesting it twice inserts zero rows. -/
theorem nullnum_counterexample :
    recNoNumNoCampus.incident_number = "" ∧
    (buildDatabase [recNoNumNoCampus, recNoNumNoCampus]).1.incidents.length
      = 0 ∧
    (buildDatabase [recNoNumNoCampus, recNoNumNoCampus]).2 = ⟨0, 2⟩ := by
  decide

/-- Claim C10 (amended): for every record with an empty incident_number WHOSE
CAMPUS RESOLVES, ingestion skips the duplicate-existence check entirely and
inserts a new incident row with a NULL (none) incident_number regardless of
what rows already exist; hence ingesting the same number-less record twice
inserts two distinct rows and increments the inserted count both times
(re-ingestion is a no-op only for records with a non-empty number). -/
theorem nullnum_always_inserts (st : DB × Counts) (rec : RawRecord)
    (cid : Nat) (hnum : rec.incident_number = "")
    (hres : resolveCampus st.1 rec = some cid) :
    ((ingestOne st rec).1.incidents.map Incident.incident_number =
      st.1.incidents.map Incident.incident_number ++ [none]) ∧
    (ingestOne st rec).2 = ⟨st.2.inserted + 1, st.2.skipped⟩ ∧
    (ingestOne (ingestOne st rec) rec).1.incidents.length =
      st.1.incidents.length + 2 ∧
    (ingestOne (ingestOne st rec) rec).2 =
      ⟨st.2.inserted + 2, st.2.skipped⟩ := by
  have hb : (!(rec.incident_number = "") &&
      st.1.incidents.any
        (fun i => i.incident_number = some rec.incident_number)) = false := by
    simp [hnum]
  obtain ⟨hc1, hi1, hn1⟩ := ingestOne_insert_spec_st st rec cid hres hb
  have hres2 : resolveCampus (ingestOne st rec).1 rec = some cid := by
    rw [resolveCampus_eq_of_campuses _ st.1 rec hc1]
    exact hres
  have hb2 : (!(rec.incident_number = "") &&
      (ingestOne st rec).1.incidents.any
        (fun i => i.incident_number = some rec.incident_number)) = false := by
    simp [hnum]
  obtain ⟨hc2, hi2, hn2⟩ :=
    ingestOne_insert_spec_st (ingestOne st rec) rec cid hres2 hb2
  refine ⟨?_, ?_, ?_, ?_⟩
  · rw [hi1]
    simp [mkIncident, hnum]
  · exact hn1
  · rw [hi2, hi1]
    simp
  · rw [hn2, hn1]

/-- A number-less record that resolves via its explicit campus code. -/
def recNoNumUP : RawRecord :=
  { campus_code := "UP", nature_of_incident := "THEFT" }

theorem nullnum_always_inserts_witness :
    ((ingestOne (initDB, ⟨0, 0⟩) recNoNumUP).1.incidents.map
        Incident.incident_number =
      initDB.incidents.map Incident.incident_number ++ [none]) ∧
    (ingestOne (initDB, ⟨0, 0⟩) recNoNumUP).2 = ⟨0 + 1, 0⟩ ∧
    (ingestOne (ingestOne (initDB, ⟨0, 0⟩) recNoNumUP)
        recNoNumUP).1.incidents.length = initDB.incidents.length + 2 ∧
    (ingestOne (ingestOne (initDB, ⟨0, 0⟩) recNoNumUP) recNoNumUP).2 =
      ⟨0 + 2, 0⟩ :=
  nullnum_always_inserts (initDB, ⟨0, 0⟩) recNoNumUP 1 rfl (by decide)

-- ── Claim C7 ────────────────────────────────────────────────────────────────

/-- The record of the spec's end-to-end scenario 3: offense text
"THEFT\n\nDISORDERLY CONDUCT\n". -/
def recTwoOffenses : RawRecord :=
  { campus_code := "UP", incident_number := "24UP00002",
    offenses := "THEFT\n\nDISORDERLY CONDUCT\n" }

/-- Claim C7: splitting an incident's offense text on newlines and trimming
each line never contributes an empty string or a string longer than 200
characters, preserves line order (the kept codes form a sublist of the trimmed
lines) and does not deduplicate within the record (every kept code keeps its
multiplicity); ingesting the scenario-3 record creates exactly the two offense
rows THEFT and DISORDERLY CONDUCT and two links, in that order. -/
theorem offense_split_clean :
    (∀ text c : String, c ∈ splitOffenses text →
      ¬ (c = "") ∧ c.length ≤ 200) ∧
    (∀ text : String,
      List.Sublist (splitOffenses text) ((pySplit "\n" text).map pyStrip)) ∧
    (∀ text c : String, ¬ (c = "") → c.length ≤ 200 →
      (splitOffenses text).count c =
        (((pySplit "\n" text).map pyStrip).count c)) ∧
    ((buildDatabase [recTwoOffenses]).1.offense_types.map
        OffenseType.offense_code = ["THEFT", "DISORDERLY CONDUCT"]) ∧
    (buildDatabase [recTwoOffenses]).1.links = [(1, 1), (1, 2)] := by
  refine ⟨?_, ?_, ?_, by decide, by decide⟩
  · intro text c hc
    have := List.of_mem_filter hc
    simp only [Bool.and_eq_true, Bool.not_eq_true', decide_eq_true_eq] at this
    exact ⟨by simpa using this.1, this.2⟩
  · intro text
    exact List.filter_sublist _
  · intro text c hne hlen
    unfold splitOffenses
    exact List.count_filter (by simp [hne, hlen])

theorem offense_split_clean_witness :
    ¬ (("THEFT" : String) = "") ∧ ("THEFT" : String).length ≤ 200 :=
  offense_split_clean.1 "THEFT\n\nDISORDERLY CONDUCT\n" "THEFT" (by decide)

-- ── Claim C8 ────────────────────────────────────────────────────────────────

/-- Claim C8: a parsed record is accepted into the batch iff at least one of
incident_number, reported_datetime, nature_of_incident is non-empty; a block
whose record has all three empty is dropped silently — the rest of the batch
parses exactly as if the block were absent. -/
theorem acceptance_filter (label : String) (blocks : List Block) :
    (∀ r ∈ parseIncidents label blocks,
      ¬ (r.incident_number = "") ∨ ¬ (r.reported_datetime = "") ∨
        ¬ (r.nature_of_incident = "")) ∧
    (∀ b ∈ blocks,
      (¬ ((parseBlock label b).incident_number = "") ∨
          ¬ ((parseBlock label b).reported_datetime = "") ∨
          ¬ ((parseBlock label b).nature_of_incident = "")) →
        parseBlock label b ∈ parseIncidents label blocks) ∧
    (∀ (b : Block) (bs1 bs2 : List Block),
      (parseBlock label b).incident_number = "" →
      (parseBlock label b).reported_datetime = "" →
      (parseBlock label b).nature_of_incident = "" →
      parseIncidents label (bs1 ++ b :: bs2) =
        parseIncidents label (bs1 ++ bs2)) := by
  refine ⟨?_, ?_, ?_⟩
  · intro r hr
    have := List.of_mem_filter hr
    have h2 := by simpa [acceptRecord, Bool.or_eq_true] using this
    tauto
  · intro b hb hacc
    refine List.mem_filter.mpr ⟨List.mem_map_of_mem _ hb, ?_⟩
    simp only [acceptRecord, Bool.or_eq_true, Bool.not_eq_true',
      decide_eq_false_iff_not]
    tauto
  · intro b bs1 bs2 h1 h2 h3
    unfold parseIncidents
    have hrej : acceptRecord (parseBlock label b) = false := by
      simp [acceptRecord, h1, h2, h3]
    simp [List.filter_append, hrej]

/-- A block whose extracted fields are all absent, parsed under a label that
is not in the vocabulary: the resulting record is pure parsing noise. -/
def blockEmpty : Block := {}

theorem acceptance_filter_witness :
    parseIncidents "Nowhere" ([] ++ blockEmpty :: []) =
      parseIncidents "Nowhere" ([] ++ []) :=
  (acceptance_filter "Nowhere" []).2.2 blockEmpty [] [] (by decide) (by decide)
    (by decide)

-- ── Claim C3 ────────────────────────────────────────────────────────────────

theorem takeWhile_append_run (p : Char → Bool) :
    ∀ (L tl : List Char), (∀ c ∈ L, p c = true) →
      (∀ c, tl.head? = some c → p c = false) →
      (L ++ tl).takeWhile p = L := by
  intro L
  induction L with
  | nil =>
    intro tl _ htl
    cases tl with
    | nil => rfl
    | cons t ts =>
      have := htl t rfl
      simp [List.takeWhile_cons, this]
  | cons x xs ih =>
    intro tl hL htl
    have hx : p x = true := hL x (by simp)
    simp only [List.cons_append, List.takeWhile_cons, hx]
    rw [ih tl (fun c hc => hL c (by simp [hc])) htl]
    simp

/-- Claim C3 counterexample: for the incident number "24PSHI0001" the group of
uppercase letters following the two digits is "PSHI" (a 4-letter group — and an
actual alternate campus code), but the regex group `[A-Z]` repeated 2-3 times
captures only the first three letters, so the derived code is "PSH", not
"PSHI". -/
theorem derive_campus_code_counterexample :
    extractCampusCode "24PSHI0001" = some "PSH" ∧
    ¬ (("PSH" : String) = "PSHI") := by
  decide

/-- Claim C3 (amended): for every incident number made of two digits followed
by a run of AT LEAST TWO uppercase letters, the derived campus code is the
first at-most-three letters of that run — equal to the whole run exactly when
the run has two or three letters (the regex captures 2-3 letters, not 2-4). -/
theorem derive_campus_code (d1 d2 : Char) (L tl : List Char)
    (hd1 : d1.isDigit = true) (hd2 : d2.isDigit = true)
    (hL : ∀ c ∈ L, isUpperAZ c = true) (hlen : 2 ≤ L.length)
    (htl : ∀ c, tl.head? = some c → isUpperAZ c = false) :
    extractCampusCode (String.mk (d1 :: d2 :: (L ++ tl))) =
      some (String.mk (L.take 3)) := by
  unfold extractCampusCode
  have htl2 : (String.mk (d1 :: d2 :: (L ++ tl))).toList =
      d1 :: d2 :: (L ++ tl) := rfl
  rw [htl2]
  simp only
  rw [if_pos (by simp [hd1, hd2])]
  rw [takeWhile_append_run isUpperAZ L tl hL htl]
  rw [if_pos (by simp [List.length_take]; omega)]

theorem derive_campus_code_witness :
    extractCampusCode
        (String.mk ('2' :: '4' :: (['U', 'P'] ++ ['1', '2', '3', '4', '5']))) =
      some (String.mk (['U', 'P'].take 3)) :=
  derive_campus_code '2' '4' ['U', 'P'] ['1', '2', '3', '4', '5'] (by decide)
    (by decide) (by decide) (by decide) (by decide)

-- ── Claim C4 ────────────────────────────────────────────────────────────────

/-- Claim C4 counterexample: the reverse name-to-code lookup does NOT return
the canonical short code for every canonical name — "University Park" maps to
"PSHI" and "Hershey" maps to "HN", because the dict comprehension building the
reverse table lets later (deprecated/alternate) entries overwrite the
canonical ones. -/
theorem reverse_lookup_counterexample :
    CAMPUS_NAME_TO_CODE_get "University Park" = some "PSHI" ∧
    ¬ (("PSHI" : String) = "UP") ∧
    CAMPUS_NAME_TO_CODE_get "Hershey" = some "HN" ∧
    ¬ (("HN" : String) = "HS") := by
  decide

/-- Claim C4 (amended): for every name in the vocabulary, the reverse
name-to-code lookup returns the code of the name's LAST occurrence in
CAMPUS_CODES — some code that maps back to that name, and the canonical code
exactly for names carried by a single code; names that also have a
deprecated/alternate code resolve to the alternate code instead. -/
theorem reverse_lookup_last_write :
    ∀ p ∈ CAMPUS_CODES,
      (∃ q ∈ CAMPUS_CODES,
        CAMPUS_NAME_TO_CODE_get p.2 = some q.1 ∧ q.2 = p.2) ∧
      (CAMPUS_CODES.countP (fun q => q.2 = p.2) = 1 →
        CAMPUS_NAME_TO_CODE_get p.2 = some p.1) := by
  decide

theorem reverse_lookup_last_write_witness :
    (∃ q ∈ CAMPUS_CODES,
      CAMPUS_NAME_TO_CODE_get ("AL", "Altoona").2 = some q.1 ∧
        q.2 = ("AL", "Altoona").2) ∧
    (CAMPUS_CODES.countP (fun q => q.2 = ("AL", "Altoona").2) = 1 →
      CAMPUS_NAME_TO_CODE_get ("AL", "Altoona").2 =
        some ("AL", "Altoona").1) :=
  reverse_lookup_last_write ("AL", "Altoona") (by decide)

-- ── Claim C9 ────────────────────────────────────────────────────────────────

/-- Claim C9 counterexample: after seeding, campus display names are NOT
unique — "Hershey" appears on two distinct rows, under the canonical code HS
(campus_id 15) and the alternate code HN (campus_id 24). -/
theorem seeded_names_counterexample :
    seededCampuses.countP (fun c => c.campus_name = "Hershey") = 2 ∧
    (⟨15, "HS", "Hershey"⟩ : Campus) ∈ seededCampuses ∧
    (⟨24, "HN", "Hershey"⟩ : Campus) ∈ seededCampuses := by
  decide

/-- Claim C9 (amended): after store initialization and campus seeding, campus
codes are unique across the campuses table, but campus display names are not —
the schema puts no uniqueness constraint on campus_name and the seed inserts a
row per code, so names shared between a canonical and an alternate code appear
on several rows. -/
theorem seeded_campus_uniqueness :
    (seededCampuses.map Campus.campus_code).Nodup ∧
    ¬ (seededCampuses.map Campus.campus_name).Nodup := by
  decide

-- ── Claim C5 ────────────────────────────────────────────────────────────────

theorem fixesGet_some_mem (c nc : String) (h : fixesGet c = some nc) :
    (c, nc) ∈ CAMPUS_CODE_FIXES := by
  unfold fixesGet at h
  cases hf : CAMPUS_CODE_FIXES.find? (fun p => p.1 = c) with
  | none => rw [hf] at h; simp at h
  | some p =>
    rw [hf] at h
    simp only [Option.map_some', Option.some.injEq] at h
    have hp1 : p.1 = c := by
      have := List.find?_some hf
      simpa using this
    have hmem := List.mem_of_find?_eq_some hf
    have : (c, nc) = p := by
      cases p
      simp_all
    rw [this]
    exact hmem

theorem fix_target_clean (c nc : String) (h : fixesGet c = some nc) :
    fixesGet nc = none ∧ isCanonical nc = true := by
  have hmem := fixesGet_some_mem c nc h
  have hall : ∀ p ∈ CAMPUS_CODE_FIXES,
      fixesGet p.2 = none ∧ isCanonical p.2 = true := by decide
  exact hall (c, nc) hmem

theorem fixRecord_clean (r : RawRecord) :
    fixesGet ((fixRecord r).campus_code) = none := by
  unfold fixRecord
  cases h : fixesGet r.campus_code with
  | none => exact h
  | some nc => exact (fix_target_clean r.campus_code nc h).1

/-- A mirror record whose campus code is neither canonical nor deprecated
(e.g. extracted from a malformed incident number). -/
def recZZ : RawRecord :=
  { campus_code := "ZZ", incident_number := "24ZZ00042" }

/-- Claim C5 counterexample: the reconciliation leaves a record whose campus
code is neither canonical nor deprecated untouched, so after the pass not
every record's campus code is drawn from the canonical set — "ZZ" survives
cleanup and is not canonical. -/
theorem clean_json_counterexample :
    (cleanJson [recZZ]).1 = [recZZ] ∧
    isCanonical recZZ.campus_code = false ∧
    fixesGet recZZ.campus_code = none := by
  decide

/-- Claim C5 (amended): the JSON-mirror reconciliation replaces, in every
record whose campus_code is a deprecated code, that code with its canonical
code and the campus name with that code's canonical name; afterwards no record
carries a DEPRECATED code any more (and a record whose code was canonical or
deprecated ends up canonical — codes outside both sets survive unchanged, so
the claim's "every record ends canonical" holds only for such inputs); the
pass is idempotent — run again immediately it applies zero fixes and returns
the records unchanged. -/
theorem clean_json_reconciliation (records : List RawRecord) :
    (∀ r ∈ records, ∀ nc, fixesGet r.campus_code = some nc →
      (fixRecord r).campus_code = nc ∧
      (fixRecord r).campus = (namesGet nc).getD "") ∧
    (∀ r ∈ (cleanJson records).1, fixesGet r.campus_code = none) ∧
    (∀ r ∈ records,
      (isCanonical r.campus_code = true ∨
        (fixesGet r.campus_code).isSome = true) →
      isCanonical ((fixRecord r).campus_code) = true) ∧
    cleanJson (cleanJson records).1 = ((cleanJson records).1, 0) := by
  refine ⟨?_, ?_, ?_, ?_⟩
  · intro r _ nc h
    simp [fixRecord, h]
  · intro r hr
    unfold cleanJson at hr
    obtain ⟨r0, _, hr0⟩ := List.mem_map.mp hr
    rw [← hr0]
    exact fixRecord_clean r0
  · intro r _ hor
    cases h : fixesGet r.campus_code with
    | none =>
      have hfix : fixRecord r = r := by simp [fixRecord, h]
      rw [hfix]
      rcases hor with hcan | hsome
      · exact hcan
      · rw [h] at hsome
        simp at hsome
    | some nc =>
      have : (fixRecord r).campus_code = nc := by simp [fixRecord, h]
      rw [this]
      exact (fix_target_clean r.campus_code nc h).2
  · have hclean : ∀ r ∈ (cleanJson records).1,
        fixesGet r.campus_code = none := by
      intro r hr
      unfold cleanJson at hr
      obtain ⟨r0, _, hr0⟩ := List.mem_map.mp hr
      rw [← hr0]
      exact fixRecord_clean r0
    unfold cleanJson
    refine Prod.ext ?_ ?_
    · simp only
      apply List.map_congr_left ?_ |>.trans (List.map_id _)
      intro r hr
      simp [fixRecord, hclean r hr]
    · simp only
      rw [List.length_eq_zero]
      rw [List.filter_eq_nil_iff]
      intro r hr
      simp [hclean r hr]

/-- The mirror record of the spec's end-to-end scenario 2: a deprecated
Hershey code. -/
def recHN : RawRecord :=
  { campus := "Hershey", campus_code := "HN", incident_number := "24HN00007" }

theorem clean_json_reconciliation_witness :
    ((fixRecord recHN).campus_code = "HS" ∧
      (fixRecord recHN).campus = (namesGet "HS").getD "") ∧
    cleanJson (cleanJson [recHN]).1 = ((cleanJson [recHN]).1, 0) :=
  ⟨(clean_json_reconciliation [recHN]).1 recHN (by decide) "HS" (by decide),
    (clean_json_reconciliation [recHN]).2.2.2⟩
